import Mathlib

/-!
Verification development for the coding-agent orchestrator
(`src/agent/code_agent/agent.py` of Kokande/githubCodingAgent).

The Python module is shallowly embedded below:

* `Message`, `ToolCall` — the LangChain message objects used by the agent
  (`SystemMessage`/`HumanMessage`/`AIMessage`/`ToolMessage` become a `Role` tag).
* `Host` — the state of the GitHub repository host as seen through the PyGithub
  primitives the module calls (`get_branch`, `create_git_ref`, `get_contents`,
  `update_file`, `create_file`, `create_pull`).  Transient API failures of the
  update/create steps are modelled by fault fields; every modelled host failure
  is a `GithubException` (PyGithub raises `GithubException` for API errors).
* the tool functions `list_files`, `read_file`, `update_file`, the graph nodes
  `agent_node`, `should_continue`, `create_pr_node`, and the driver
  `run_coding_agent` (initial state, step function of the compiled graph).

The `AgentState` TypedDict declares `messages : List[BaseMessage]` without a
reducer annotation, so under LangGraph semantics each node's returned
`messages` value REPLACES the previous one; `step` below reproduces that.
-/

namespace CodingAgent

/-- Roles of the LangChain message classes used by `agent.py`:
`SystemMessage`, `HumanMessage`, `AIMessage`, `ToolMessage`. -/
inductive Role where
  | system
  | user
  | assistant
  | tool
deriving DecidableEq, Repr

/-- A tool call requested by the model (LangChain `tool_calls` entry). -/
structure ToolCall where
  id : String
  name : String
  args : List (String × String)
deriving DecidableEq, Repr

/-- A chat message.  `tool_calls` is meaningful on assistant messages,
`tool_call_id` on tool-result messages. -/
structure Message where
  role : Role
  content : String
  tool_calls : List ToolCall := []
  tool_call_id : Option String := none
deriving DecidableEq, Repr

/-- Outcome of a host-API primitive: success, or a raised `GithubException`
carrying its message.  (All PyGithub API failures are `GithubException`s.) -/
inductive Res (α : Type) where
  | ok : α → Res α
  | ghExn : String → Res α
deriving DecidableEq, Repr

/-- Trace entry: one call to a PyGithub repository primitive. -/
inductive Call where
  | getBranch : String → Call
  | createRef : (branch : String) → (sha : String) → Call
  | getContents : (path : String) → (ref : String) → Call
  | updateFile : (path : String) → (branch : String) → Call
  | createFile : (path : String) → (branch : String) → Call
deriving DecidableEq, Repr

/-- The repository host's state, as observable through the primitives used by
`agent.py`.  `branches` maps a branch name to its head commit sha; `files`
maps branch name and path to file content.  `update_fault` / `create_fault`
inject a `GithubException` (with the given message) into `repo.update_file` /
`repo.create_file`, modelling transient API failures of those steps. -/
structure Host where
  default_branch : String
  branches : String → Option String
  files : String → String → Option String
  update_fault : Option String
  create_fault : Option String

/-- Models `repo.get_branch(name)`: the branch's head sha, or a 404 `GithubException`. -/
def host_get_branch (h : Host) (name : String) : Res String :=
  match h.branches name with
  | some sha => .ok sha
  | none => .ghExn ("404 branch not found: " ++ name)

/-- Models `repo.create_git_ref(ref="refs/heads/<name>", sha=sha)` where `sha` is the
default branch's head: the new branch exists and (as on the real host, where a
ref is a pointer into the commit graph) carries the default branch's files. -/
def host_create_ref (h : Host) (name sha : String) : Host :=
  { h with
    branches := fun n => if n = name then some sha else h.branches n,
    files := fun b p => if b = name then h.files h.default_branch p else h.files b p }

/-- Models `repo.get_contents(path, ref=branch)`: the file's content, or a 404
`GithubException` when absent. -/
def host_get_contents (h : Host) (path branch : String) : Res String :=
  match h.files branch path with
  | some c => .ok c
  | none => .ghExn ("404 file not found: " ++ path)

/-- Models `repo.update_file(path, message, content, sha, branch=branch)`:
fails with the injected fault if one is set, otherwise replaces the content of
an existing file. -/
def host_update_file (h : Host) (path new_content branch : String) : Res Host :=
  match h.update_fault with
  | some m => .ghExn m
  | none =>
    match h.files branch path with
    | some _ => .ok { h with
        files := fun b p => if b = branch ∧ p = path then some new_content else h.files b p }
    | none => .ghExn ("404 file not found: " ++ path)

/-- Models `repo.create_file(path, message, content, branch=branch)`:
fails with the injected fault if one is set, fails with 422 when the file
already exists on the branch, otherwise inserts it. -/
def host_create_file (h : Host) (path new_content branch : String) : Res Host :=
  match h.create_fault with
  | some m => .ghExn m
  | none =>
    match h.files branch path with
    | some _ => .ghExn ("422 file already exists: " ++ path)
    | none => .ok { h with
        files := fun b p => if b = branch ∧ p = path then some new_content else h.files b p }

/-- The branch-resolution step of `update_file` (agent.py lines 76-80):

    try:
        repo.get_branch(branch)
    except GithubException:
        source = repo.get_branch(repo.default_branch)
        repo.create_git_ref(ref=f"refs/heads/\x7bbranch\x7d", sha=source.commit.sha)

A failure of the inner `get_branch(repo.default_branch)` escapes to the outer
handler of `update_file`, hence the `Res` result.  The second component is the
trace of host calls performed. -/
def ensure_branch (h : Host) (branch : String) : Res Host × List Call :=
  match host_get_branch h branch with
  | .ok _ => (.ok h, [.getBranch branch])
  | .ghExn _ =>
    match host_get_branch h h.default_branch with
    | .ok sha =>
        (.ok (host_create_ref h branch sha),
         [.getBranch branch, .getBranch h.default_branch, .createRef branch sha])
    | .ghExn m => (.ghExn m, [.getBranch branch, .getBranch h.default_branch])

/-- The `update_file` tool (agent.py lines 67-91).  Returns the result string
given to the model, the host state after the call (remote mutations persist
even when a later step fails), and the trace of host calls.

Control flow of the source: the branch-resolution step first; then an inner
`try` whose body is `get_contents` followed by `repo.update_file`, with
`except GithubException:` falling through to `repo.create_file` — so a
`GithubException` raised by the update step itself also takes the create
fallback.  Any failure escaping the inner handler reaches the outer
`except Exception` and becomes `"Error committing to file: <detail>"`. -/
def update_file (h : Host) (file_path new_content commit_message branch : String) :
    String × Host × List Call :=
  match ensure_branch h branch with
  | (.ghExn m, t) => ("Error committing to file: " ++ m, h, t)
  | (.ok h1, t) =>
    match host_get_contents h1 file_path branch with
    | .ok _contents =>
      match host_update_file h1 file_path new_content branch with
      | .ok h2 =>
          ("Updated " ++ file_path ++ " on " ++ branch, h2,
           t ++ [.getContents file_path branch, .updateFile file_path branch])
      | .ghExn _ =>
        -- a GithubException from the update step is caught by the inner
        -- `except GithubException` and falls into the create fallback
        match host_create_file h1 file_path new_content branch with
        | .ok h2 =>
            ("Created " ++ file_path ++ " on " ++ branch, h2,
             t ++ [.getContents file_path branch, .updateFile file_path branch,
                   .createFile file_path branch])
        | .ghExn m2 =>
            ("Error committing to file: " ++ m2, h1,
             t ++ [.getContents file_path branch, .updateFile file_path branch,
                   .createFile file_path branch])
    | .ghExn _ =>
      match host_create_file h1 file_path new_content branch with
      | .ok h2 =>
          ("Created " ++ file_path ++ " on " ++ branch, h2,
           t ++ [.getContents file_path branch, .createFile file_path branch])
      | .ghExn m2 =>
          ("Error committing to file: " ++ m2, h1,
           t ++ [.getContents file_path branch, .createFile file_path branch])

/-- The `read_file` tool (agent.py lines 50-64): `repo.get_contents(file_path)`
reads from the default branch (no `ref` argument); any raised exception is
caught and rendered as an error string. -/
def read_file (h : Host) (file_path : String) : String :=
  match host_get_contents h file_path h.default_branch with
  | .ok c => c
  | .ghExn e => "Error reading file: " ++ e

/-! ### The `list_files` tool

`repo.get_contents` on a directory returns its entries; the directory tree
reachable from the starting path is modelled as a forest of `FSEntry` values
(the `get_contents` call on a directory returns exactly its `children`).
A host failure of the initial `get_contents(path)` is modelled by `Res`. -/

/-- One entry of the repository's directory tree, as returned by
`repo.get_contents`: a file (`type != "dir"`) or a directory with its
children. -/
inductive FSEntry where
  | file : (path : String) → FSEntry
  | dir : (path : String) → (children : List FSEntry) → FSEntry

/-- Total number of entries in a forest (termination measure for the queue
traversal). -/
def sizeList : List FSEntry → Nat
  | [] => 0
  | .file _ :: rest => 1 + sizeList rest
  | .dir _ cs :: rest => 1 + sizeList cs + sizeList rest

/-- The queue loop of `list_files` (agent.py lines 38-44): pop the front of
`contents`; a file's path is appended to the output, a directory's children are
appended to the back of the queue. -/
def bfs_files : List FSEntry → List String
  | [] => []
  | .file p :: rest => p :: bfs_files rest
  | .dir _ cs :: rest => bfs_files (rest ++ cs)
termination_by l => sizeList l
decreasing_by
  all_goals simp [sizeList]
  have hap : ∀ (a b : List FSEntry), sizeList (a ++ b) = sizeList a + sizeList b := by
    intro a b
    induction a with
    | nil => simp [sizeList]
    | cons e rest ih => cases e <;> simp [sizeList, ih] <;> omega
  rw [hap]
  omega

/-- The file paths found directly at one level of the forest. -/
def level_files : List FSEntry → List String
  | [] => []
  | .file p :: rest => p :: level_files rest
  | .dir _ _ :: rest => level_files rest

/-- The next level of the forest: children of this level's directories, in
order. -/
def next_level : List FSEntry → List FSEntry
  | [] => []
  | .file _ :: rest => next_level rest
  | .dir _ cs :: rest => cs ++ next_level rest

/-- All file paths anywhere in the forest (never directory paths). -/
def files_of : List FSEntry → List String
  | [] => []
  | .file p :: rest => p :: files_of rest
  | .dir _ cs :: rest => files_of cs ++ files_of rest

/-- The `list_files` tool (agent.py lines 26-47): `root` is the outcome of the
initial `repo.get_contents(path)`; on success the queue traversal runs and the
first 50 collected file paths (`files[:50]`) are newline-joined; a raised
exception is rendered as an error string. -/
def list_files (root : Res (List FSEntry)) : String :=
  match root with
  | .ok contents => String.intercalate "\n" ((bfs_files contents).take 50)
  | .ghExn e => "Error listing files: " ++ e

/-! ### The graph nodes and the driving loop -/

/-- The working state of the graph (the `AgentState` TypedDict): the `repo`
object is represented by the two attributes the module reads from it,
`repo.full_name` and `repo.default_branch`. -/
structure AgentState where
  repo_full_name : String
  default_branch : String
  issue_title : String
  issue_desc : String
  branch_name : String
  messages : List Message
deriving DecidableEq, Repr

/-- The system prompt built in `agent_node` (agent.py lines 109-119). -/
def sys_msg (repo_name issue_title issue_desc branch_name : String) : Message :=
  { role := .system,
    content :=
      "\n    Ты агент-кодер. Репозиторий: " ++ repo_name ++ ".\n\n    Задача: Исправить проблему \"" ++
      issue_title ++ "\"\n    Контекст: " ++ issue_desc ++ "\n    Целевая ветка: " ++
      branch_name ++
      "\n    \n    1. Изучите код (`list_files`, `read_file`).\n    2. Создайте/Обновите файлы (`update_file`). *Всегда* передавайте '" ++
      repo_name ++
      "' в качестве аргумента repo_full_name.\n    3. После завершения ответь строго \"READY_FOR_PR\".\n    " }

/-- agent.py lines 123-124: if the message list is empty or does not start
with a `SystemMessage`, prepend the system prompt.  This list is what is
passed to the model; it is not written back to the state. -/
def prep_messages (sm : Message) (messages : List Message) : List Message :=
  match messages with
  | [] => [sm]
  | m :: _ => if m.role = .system then messages else sm :: messages

/-- The inference provider: from the invoked message list, the assistant
response's text content and tool calls (`llm_with_tools.invoke`). -/
def Llm : Type := List Message → String × List ToolCall

/-- The node `agent_node` (agent.py lines 94-128): builds the system prompt, prepends
it when missing, invokes the model, and returns `{"messages": [response]}` —
the value that (with no reducer on `AgentState.messages`) replaces the state's
message list. -/
def agent_node (llm : Llm) (state : AgentState) : List Message :=
  let sm := sys_msg state.repo_full_name state.issue_title state.issue_desc state.branch_name
  let messages := prep_messages sm state.messages
  let response := llm messages
  [{ role := .assistant, content := response.1, tool_calls := response.2 }]

/-- The edge `should_continue` (agent.py lines 131-135): inspect the last message;
`"tools"` when it carries tool calls, `"create_pr"` otherwise.  `none` models
the `IndexError` of `state["messages"][-1]` on an empty list (never reached by
the graph, which enters this edge right after `agent_node`). -/
def should_continue (state : AgentState) : Option String :=
  match state.messages.getLast? with
  | none => none
  | some last_message =>
      if last_message.tool_calls.isEmpty then some "create_pr" else some "tools"

/-- A `repo.create_pull` invocation: its keyword arguments. -/
structure PrCall where
  title : String
  body : String
  head : String
  base : String
deriving DecidableEq, Repr

/-- The host's pull-request primitive: from the call's arguments, the created
PR's `html_url`, or a raised exception's detail. -/
def PrHost : Type := PrCall → Res String

/-- The node `create_pr_node` (agent.py lines 138-152): one `repo.create_pull` attempt
with title `"Fix: <issue_title>"`, body `"Automated PR for: <issue_desc>"`,
head the working branch, base the default branch; success and failure are both
rendered as an `AIMessage`.  The second component is the list of PR attempts
made. -/
def create_pr_node (host_pr : PrHost) (state : AgentState) : Message × List PrCall :=
  let title := "Fix: " ++ state.issue_title
  let body := "Automated PR for: " ++ state.issue_desc
  let call : PrCall := { title := title, body := body,
                         head := state.branch_name, base := state.default_branch }
  match host_pr call with
  | .ok url => ({ role := .assistant, content := "PR Created: " ++ url }, [call])
  | .ghExn e => ({ role := .assistant, content := "PR Failed: " ++ e }, [call])

/-- The `create_pull` arguments assembled by `create_pr_node` for a given
state: title `"Fix: <issue_title>"`, body `"Automated PR for: <issue_desc>"`,
head the working branch, base the default branch. -/
def pr_call_of (state : AgentState) : PrCall :=
  { title := "Fix: " ++ state.issue_title,
    body := "Automated PR for: " ++ state.issue_desc,
    head := state.branch_name,
    base := state.default_branch }

/-- Which node of the compiled graph runs next. -/
inductive Phase where
  | agent
  | tools
  | create_pr
  | done
deriving DecidableEq, Repr

/-- The run: the graph state plus the current node and the driver's
`final_output` accumulator (agent.py lines 195-206). -/
structure RunState where
  agents : AgentState
  phase : Phase
  final_output : String
deriving DecidableEq, Repr

/-- One tool executor: from a tool call, the result string placed into the
`ToolMessage` (the `ToolNode` dispatches on the call's name). -/
def ToolExec : Type := ToolCall → String

/-- One step of the compiled graph.  `agent` runs `agent_node` (its returned
list replaces `messages`) and follows the conditional edge `should_continue`;
`tools` runs the `ToolNode`, whose returned `ToolMessage` list replaces
`messages`, and the edge `tools -> agent` re-enters the model; `create_pr`
runs `create_pr_node`, the driver records its message content as
`final_output`, and the edge to `END` terminates. -/
def step (llm : Llm) (exec : ToolExec) (host_pr : PrHost) (st : RunState) : RunState :=
  match st.phase with
  | .agent =>
      let ag1 := { st.agents with messages := agent_node llm st.agents }
      { st with agents := ag1,
                phase := if should_continue ag1 = some "tools" then .tools else .create_pr }
  | .tools =>
      let tcs := ((st.agents.messages.getLast?).map Message.tool_calls).getD []
      let results := tcs.map fun tc =>
        ({ role := .tool, content := exec tc, tool_call_id := some tc.id } : Message)
      { st with agents := { st.agents with messages := results }, phase := .agent }
  | .create_pr =>
      let r := create_pr_node host_pr st.agents
      { agents := { st.agents with messages := [r.1] }, phase := .done,
        final_output := r.1.content }
  | .done => st

/-- Iterates `step` for `n` steps of the graph. -/
def stepN (llm : Llm) (exec : ToolExec) (host_pr : PrHost) : Nat → RunState → RunState
  | 0, st => st
  | n + 1, st => stepN llm exec host_pr n (step llm exec host_pr st)

/-- agent.py line 182: `"".join(c if c.isalnum() else "-" for c in
issue_title.lower())[:30]` — lowercase the title, replace each
non-alphanumeric character by `'-'`, keep the first 30 characters. -/
def safe_title (issue_title : String) : String :=
  String.mk (((issue_title.toLower).data.map fun c => if c.isAlphanum then c else '-').take 30)

/-- agent.py line 183: `f"agent/fix-\x7bsafe_title\x7d"`. -/
def mk_branch_name (issue_title : String) : String :=
  "agent/fix-" ++ safe_title issue_title

/-- The initial state built by `run_coding_agent` (agent.py lines 185-192):
entry point is the `agent` node and `messages` is seeded with the single
`HumanMessage`. -/
def initial_state (repo_full_name default_branch issue_title issue_desc : String) : RunState :=
  { agents :=
      { repo_full_name := repo_full_name,
        default_branch := default_branch,
        issue_title := issue_title,
        issue_desc := issue_desc,
        branch_name := mk_branch_name issue_title,
        messages := [{ role := .user, content := "Приступай к диагностике и исправлению." }] },
    phase := .agent,
    final_output := "" }

/-! ### Specification-side definitions -/

/-- Definition following C10's words: `"agent/fix-"` followed by the
lowercased title with each non-alphanumeric character replaced by `"-"`,
truncated to at most 30 characters. -/
def branch_name_claimed (title : String) : String :=
  "agent/fix-" ++
    (String.mk ((title.toLower).data.map fun c => if c.isAlphanum then c else '-')).take 30

/-- No message in the list has the system role. -/
def no_system (msgs : List Message) : Prop :=
  ∀ m ∈ msgs, m.role ≠ .system

/-- Number of branch-creation host calls (`create_git_ref`) in a trace. -/
def count_create_refs (t : List Call) : Nat :=
  t.countP fun c => match c with
    | .createRef _ _ => true
    | _ => false

/-- The host state after a call: the returned host on success, the previous
host when the call failed. -/
def res_host (h : Host) (r : Res Host) : Host :=
  match r with
  | .ok h' => h'
  | .ghExn _ => h

/-- Concrete host for the C4 scenario: the working branch and the file exist,
and the host's update step fails with a `GithubException` (`409 Conflict`). -/
def conflict_host : Host :=
  { default_branch := "main",
    branches := fun n => if n = "main" then some "sha0"
      else if n = "agent/fix-bug" then some "sha1" else none,
    files := fun b p => if b = "agent/fix-bug" ∧ p = "app.py" then some "old code" else none,
    update_fault := some "409 Conflict",
    create_fault := none }

/-! ### Helper lemmas -/

/-- Appending preserves a known first character. -/
theorem head_append (s t : String) (c : Char) (h : s.data.head? = some c) :
    (s ++ t).data.head? = some c := by
  simp [String.data_append, List.head?_append, h]

/-- Two appends whose left parts start with different characters are
different strings. -/
theorem ne_of_head_ne (s₁ s₂ t₁ t₂ : String) (c₁ c₂ : Char)
    (h₁ : s₁.data.head? = some c₁) (h₂ : s₂.data.head? = some c₂) (hne : c₁ ≠ c₂) :
    s₁ ++ t₁ ≠ s₂ ++ t₂ := by
  intro he
  apply hne
  have hd := congrArg (fun s => s.data.head?) he
  simp only [String.data_append, List.head?_append, h₁, h₂] at hd
  simpa using hd

/-- The error result of `update_file` is never an `"Updated ..."` result. -/
theorem error_ne_updated (msg p br : String) :
    "Error committing to file: " ++ msg ≠ "Updated " ++ p ++ " on " ++ br := by
  refine ne_of_head_ne _ _ _ _ 'E' 'U' (by decide) ?_ (by decide)
  exact head_append _ _ _ (head_append _ _ _ (by decide))

/-- The error result of `update_file` is never a `"Created ..."` result. -/
theorem error_ne_created (msg p br : String) :
    "Error committing to file: " ++ msg ≠ "Created " ++ p ++ " on " ++ br := by
  refine ne_of_head_ne _ _ _ _ 'E' 'C' (by decide) ?_ (by decide)
  exact head_append _ _ _ (head_append _ _ _ (by decide))

/-! ### Claim theorems -/

/-- C1.  For every assistant message produced by a model turn (i.e. appended
last to the state's messages), `should_continue` routes to `"tools"` iff the
message's tool-call list is non-empty and to `"create_pr"` iff it is empty,
and the decision is unchanged under any change of the message's text
content. -/
theorem decide_tools_iff (ag : AgentState) (ms : List Message)
    (c₁ c₂ : String) (tcs : List ToolCall) (tcid : Option String) :
    (should_continue { ag with messages := ms ++ [⟨.assistant, c₁, tcs, tcid⟩] } = some "tools"
        ↔ tcs ≠ [])
  ∧ (should_continue { ag with messages := ms ++ [⟨.assistant, c₁, tcs, tcid⟩] } = some "create_pr"
        ↔ tcs = [])
  ∧ should_continue { ag with messages := ms ++ [⟨.assistant, c₁, tcs, tcid⟩] } =
      should_continue { ag with messages := ms ++ [⟨.assistant, c₂, tcs, tcid⟩] } := by
  simp only [should_continue, List.getLast?_concat]
  cases tcs <;> simp

/-- Witness for C1 at a concrete assistant message with one tool call. -/
theorem decide_tools_iff_witness :
    should_continue
      { repo_full_name := "acme/widgets", default_branch := "main",
        issue_title := "Fix bug", issue_desc := "d", branch_name := "agent/fix-fix-bug",
        messages := [] ++ [⟨.assistant, "calling a tool", [⟨"1", "read_file", []⟩], none⟩] }
      = some "tools" :=
  ((decide_tools_iff
      { repo_full_name := "acme/widgets", default_branch := "main",
        issue_title := "Fix bug", issue_desc := "d", branch_name := "agent/fix-fix-bug",
        messages := [] }
      [] "calling a tool" "x" [⟨"1", "read_file", []⟩] none).1).mpr (by decide)

/-- C10.  The working branch name computed at run start is exactly the
claimed slug of the issue title, never exceeds 40 characters, and depends on
the issue title alone (two runs with the same title target the same
branch). -/
theorem branch_name_spec (title : String) :
    mk_branch_name title = branch_name_claimed title
  ∧ (mk_branch_name title).length ≤ 40
  ∧ (∀ r₁ db₁ d₁ r₂ db₂ d₂,
      (initial_state r₁ db₁ title d₁).agents.branch_name =
      (initial_state r₂ db₂ title d₂).agents.branch_name) := by
  refine ⟨by rw [branch_name_claimed, String.take_eq]; rfl, ?_, fun _ _ _ _ _ _ => rfl⟩
  have h10 : ("agent/fix-" : String).length = 10 := by decide
  simp only [mk_branch_name, safe_title, String.length_append, h10, String.length_mk]
  have := List.length_take_le 30
      (((title.toLower).data.map fun c => if c.isAlphanum then c else '-'))
  omega

/-- C7.  `read_file` is a total function (the embedded `try/except` never
re-raises): on success it returns the file's content, on failure a string
that extends `"Error reading file:"`; and a `tools` step of the graph always
continues to the next model turn (`tools -> agent` edge), whatever the tool
results contain. -/
theorem read_file_spec :
    (∀ (h : Host) (p c : String), h.files h.default_branch p = some c → read_file h p = c)
  ∧ (∀ (h : Host) (p : String), h.files h.default_branch p = none →
      read_file h p = "Error reading file:" ++ (" 404 file not found: " ++ p))
  ∧ (∀ (llm : Llm) (exec : ToolExec) (host_pr : PrHost) (st : RunState),
      st.phase = .tools → (step llm exec host_pr st).phase = .agent) := by
  refine ⟨?_, ?_, ?_⟩
  · intro h p c hc
    simp [read_file, host_get_contents, hc]
  · intro h p hc
    simp only [read_file, host_get_contents, hc]
    rw [← String.append_assoc]
    rfl
  · intro llm exec host_pr st hst
    simp [step, hst]

/-- Witness for C7: a host with one file; reading it returns its content,
reading a missing path returns the error string, and a concrete `tools`-phase
state steps back to the `agent` phase. -/
theorem read_file_spec_witness :
    read_file
      { default_branch := "main",
        branches := fun n => if n = "main" then some "sha0" else none,
        files := fun b p => if b = "main" ∧ p = "README.md" then some "hello" else none,
        update_fault := none, create_fault := none } "README.md" = "hello"
  ∧ read_file
      { default_branch := "main",
        branches := fun n => if n = "main" then some "sha0" else none,
        files := fun b p => if b = "main" ∧ p = "README.md" then some "hello" else none,
        update_fault := none, create_fault := none } "missing.txt"
      = "Error reading file:" ++ (" 404 file not found: " ++ "missing.txt")
  ∧ (step (fun _ => ("done", [])) (fun _ => "result") (fun _ => .ghExn "boom")
      { agents :=
          { repo_full_name := "acme/widgets", default_branch := "main",
            issue_title := "Fix bug", issue_desc := "d", branch_name := "agent/fix-fix-bug",
            messages := [⟨.assistant, "", [⟨"1", "read_file", []⟩], none⟩] },
        phase := .tools, final_output := "" }).phase = .agent := by
  refine ⟨read_file_spec.1 _ _ _ (by decide), read_file_spec.2.1 _ _ (by decide),
    read_file_spec.2.2 _ _ _ _ rfl⟩

/-- Counterexample to C9: the message sequence seeded by `run_coding_agent`
has a single element — the user message alone — not the claimed two (system
then user). -/
theorem initial_messages_not_two :
    (initial_state "acme/widgets" "main" "Fix bug" "Something broke").agents.messages.length = 1
  ∧ ((initial_state "acme/widgets" "main" "Fix bug"
        "Something broke").agents.messages.map Message.role) = [Role.user] := by
  decide

/-- C9 as amended.  `run_coding_agent` seeds the state's messages with
exactly one user message (`"Приступай к диагностике и исправлению."`, i.e.
"begin diagnosis and fix"); the system message is prepended by `agent_node`,
so the list passed to the model on the first turn is exactly two messages:
the system message followed by that user message. -/
theorem initial_messages_seeding (r db t d : String) :
    (initial_state r db t d).agents.messages =
      [{ role := .user, content := "Приступай к диагностике и исправлению." }]
  ∧ prep_messages
      (sys_msg (initial_state r db t d).agents.repo_full_name
        (initial_state r db t d).agents.issue_title
        (initial_state r db t d).agents.issue_desc
        (initial_state r db t d).agents.branch_name)
      (initial_state r db t d).agents.messages =
      [sys_msg r t d (mk_branch_name t),
       { role := .user, content := "Приступай к диагностике и исправлению." }]
  ∧ (prep_messages
      (sys_msg r t d (mk_branch_name t))
      (initial_state r db t d).agents.messages).map Message.role = [.system, .user] := by
  refine ⟨rfl, ?_, ?_⟩ <;> simp [initial_state, prep_messages, sys_msg]

/-- The node `create_pr_node` always returns an assistant message (an `AIMessage` in
both the success and the failure branch). -/
theorem create_pr_node_role (host_pr : PrHost) (ag : AgentState) :
    (create_pr_node host_pr ag).1.role = .assistant := by
  simp only [create_pr_node]
  split <;> rfl

/-- Every node's returned message list (which replaces the state's messages)
is free of system messages: `agent_node` returns one assistant message, the
`ToolNode` returns tool messages, `create_pr_node` returns one assistant
message. -/
theorem step_no_system (llm : Llm) (exec : ToolExec) (host_pr : PrHost) (st : RunState)
    (h : no_system st.agents.messages) :
    no_system (step llm exec host_pr st).agents.messages := by
  cases hph : st.phase with
  | agent =>
      intro m hm
      simp [step, hph, agent_node] at hm
      simp [hm]
  | tools =>
      intro m hm
      simp [step, hph] at hm
      obtain ⟨tc, -, rfl⟩ := hm
      simp
  | create_pr =>
      intro m hm
      simp [step, hph] at hm
      subst hm
      simp [create_pr_node_role]
  | done =>
      simpa [step, hph] using h

/-- Counterexample to C2: at run start — a point of the run — the first
element of the state's messages has role `user`, not `system`. -/
theorem first_message_role_user :
    ((initial_state "acme/widgets" "main" "Fix bug"
        "Something broke").agents.messages.head?).map Message.role = some Role.user := by
  decide

/-- C2 as amended.  The run state's messages never contain a system message
at any point of any run (the `agent_node` update replaces the list with the
model's assistant message and never persists the system prompt).  The
system-first invariant holds instead for the transient list `agent_node`
passes to the model: when the state's messages contain no system message,
the prepended list is exactly the system prompt followed by them, so its
first element is the single system message. -/
theorem messages_never_system :
    (∀ (llm : Llm) (exec : ToolExec) (host_pr : PrHost) (r db t d : String) (n : Nat),
      no_system (stepN llm exec host_pr n (initial_state r db t d)).agents.messages)
  ∧ (∀ (rn it idesc bn : String) (msgs : List Message), no_system msgs →
      prep_messages (sys_msg rn it idesc bn) msgs = sys_msg rn it idesc bn :: msgs
      ∧ (sys_msg rn it idesc bn).role = .system) := by
  constructor
  · intro llm exec host_pr r db t d n
    induction n generalizing r db t d with
    | zero =>
        intro m hm
        simp [stepN, initial_state] at hm
        simp [hm]
    | succ k ih =>
        -- push the new step to the outside of the iteration
        have hcomm : ∀ (j : Nat) (st : RunState),
            stepN llm exec host_pr (j + 1) st =
            step llm exec host_pr (stepN llm exec host_pr j st) := by
          intro j
          induction j with
          | zero => intro st; rfl
          | succ i ihj => intro st; rw [stepN, ihj, stepN]
        rw [hcomm]
        exact step_no_system llm exec host_pr _ (ih r db t d)
  · intro rn it idesc bn msgs hns
    refine ⟨?_, rfl⟩
    match msgs with
    | [] => rfl
    | m :: rest =>
        have : m.role ≠ .system := hns m (by simp)
        simp [prep_messages, this]

/-- Witness for C2's amended theorem: after two steps of a concrete run the
state's messages still contain no system message, and prepending the system
prompt to a concrete system-free list puts the system message first. -/
theorem messages_never_system_witness :
    no_system (stepN (fun _ => ("done", [])) (fun _ => "result") (fun _ => .ghExn "boom") 2
        (initial_state "acme/widgets" "main" "Fix bug" "Something broke")).agents.messages
  ∧ prep_messages (sys_msg "acme/widgets" "Fix bug" "Something broke" "agent/fix-fix-bug")
      [{ role := .user, content := "hi" }] =
      sys_msg "acme/widgets" "Fix bug" "Something broke" "agent/fix-fix-bug" ::
        [{ role := .user, content := "hi" }] :=
  ⟨messages_never_system.1 _ _ _ "acme/widgets" "main" "Fix bug" "Something broke" 2,
   (messages_never_system.2 "acme/widgets" "Fix bug" "Something broke" "agent/fix-fix-bug"
      [{ role := .user, content := "hi" }] (by simp [no_system])).1⟩

/-- C8.  `create_pr_node` makes exactly one `create_pull` attempt, from the
working branch to the default branch, with title `"Fix: <issue_title>"` and a
body containing the issue description; on success its message content
contains the created PR's URL, on failure it contains the failure detail; and
in both cases the run's `create_pr` step terminates normally (`done` phase)
with that content as the run's `final_output` — the failure is data, not a
fatal error. -/
theorem create_pr_spec (host_pr : PrHost) (ag : AgentState) :
    (create_pr_node host_pr ag).2 = [pr_call_of ag]
  ∧ (pr_call_of ag).title = "Fix: " ++ ag.issue_title
  ∧ (pr_call_of ag).head = ag.branch_name
  ∧ (pr_call_of ag).base = ag.default_branch
  ∧ (∃ a b : String, (pr_call_of ag).body = a ++ ag.issue_desc ++ b)
  ∧ (∀ url, host_pr (pr_call_of ag) = .ok url →
      (create_pr_node host_pr ag).1.content = "PR Created: " ++ url
      ∧ ∃ a b : String, (create_pr_node host_pr ag).1.content = a ++ url ++ b)
  ∧ (∀ e, host_pr (pr_call_of ag) = .ghExn e →
      (create_pr_node host_pr ag).1.content = "PR Failed: " ++ e
      ∧ ∃ a b : String, (create_pr_node host_pr ag).1.content = a ++ e ++ b)
  ∧ (∀ (llm : Llm) (exec : ToolExec) (st : RunState), st.phase = .create_pr →
      (step llm exec host_pr st).phase = .done
      ∧ (step llm exec host_pr st).final_output = (create_pr_node host_pr st.agents).1.content) := by
  refine ⟨?_, rfl, rfl, rfl, ⟨"Automated PR for: ", "", by simp [pr_call_of]⟩, ?_, ?_, ?_⟩
  · simp only [create_pr_node]
    split <;> rfl
  · intro url hr
    simp only [create_pr_node]
    rw [show (⟨"Fix: " ++ ag.issue_title, "Automated PR for: " ++ ag.issue_desc,
          ag.branch_name, ag.default_branch⟩ : PrCall) = pr_call_of ag from rfl, hr]
    exact ⟨rfl, "PR Created: ", "", by simp⟩
  · intro e hr
    simp only [create_pr_node]
    rw [show (⟨"Fix: " ++ ag.issue_title, "Automated PR for: " ++ ag.issue_desc,
          ag.branch_name, ag.default_branch⟩ : PrCall) = pr_call_of ag from rfl, hr]
    exact ⟨rfl, "PR Failed: ", "", by simp⟩
  · intro llm exec st hst
    simp [step, hst]

/-- Witness for C8 at a failing PR host ("PR already exists"): the result
message carries the failure detail and the concrete `create_pr`-phase state
steps to `done` with that content as final output. -/
theorem create_pr_spec_witness :
    (create_pr_node (fun _ => .ghExn "422 A pull request already exists")
      { repo_full_name := "acme/widgets", default_branch := "main",
        issue_title := "Fix bug", issue_desc := "Something broke",
        branch_name := "agent/fix-fix-bug", messages := [] }).1.content =
      "PR Failed: " ++ "422 A pull request already exists"
  ∧ (step (fun _ => ("done", [])) (fun _ => "result")
      (fun _ => .ghExn "422 A pull request already exists")
      { agents :=
          { repo_full_name := "acme/widgets", default_branch := "main",
            issue_title := "Fix bug", issue_desc := "Something broke",
            branch_name := "agent/fix-fix-bug", messages := [] },
        phase := .create_pr, final_output := "" }).phase = .done :=
  ⟨((create_pr_spec (fun _ => .ghExn "422 A pull request already exists")
      { repo_full_name := "acme/widgets", default_branch := "main",
        issue_title := "Fix bug", issue_desc := "Something broke",
        branch_name := "agent/fix-fix-bug", messages := [] }).2.2.2.2.2.2.1
      "422 A pull request already exists" rfl).1,
   ((create_pr_spec (fun _ => .ghExn "422 A pull request already exists")
      { repo_full_name := "acme/widgets", default_branch := "main",
        issue_title := "Fix bug", issue_desc := "Something broke",
        branch_name := "agent/fix-fix-bug", messages := [] }).2.2.2.2.2.2.2
      (fun _ => ("done", [])) (fun _ => "result")
      { agents :=
          { repo_full_name := "acme/widgets", default_branch := "main",
            issue_title := "Fix bug", issue_desc := "Something broke",
            branch_name := "agent/fix-fix-bug", messages := [] },
        phase := .create_pr, final_output := "" } rfl).1⟩

/-- C5.  The branch-resolution step is idempotent: across two successive
calls for the same name, at most one branch-creation host call
(`create_git_ref`) is performed; and whenever the first call succeeded, the
second call is a pure no-op — it returns the host unchanged, without error,
at the cost of exactly one existence check. -/
theorem ensure_branch_idempotent (h : Host) (name : String) :
    count_create_refs (ensure_branch h name).2
      + count_create_refs (ensure_branch (res_host h (ensure_branch h name).1) name).2 ≤ 1
  ∧ (∀ h', (ensure_branch h name).1 = .ok h' →
      ensure_branch h' name = (.ok h', [Call.getBranch name])) := by
  rcases hb : h.branches name with _ | sha
  · rcases hd : h.branches h.default_branch with _ | sha0
    · constructor
      · simp [ensure_branch, host_get_branch, hb, hd, res_host, count_create_refs]
      · intro h' hE
        simp [ensure_branch, host_get_branch, hb, hd] at hE
    · constructor
      · simp [ensure_branch, host_get_branch, host_create_ref, hb, hd, res_host,
          count_create_refs]
      · intro h' hE
        simp only [ensure_branch, host_get_branch, hb, hd] at hE
        injection hE with hE
        subst hE
        simp [ensure_branch, host_get_branch, host_create_ref]
  · constructor
    · simp [ensure_branch, host_get_branch, hb, res_host, count_create_refs]
    · intro h' hE
      simp only [ensure_branch, host_get_branch, hb] at hE
      injection hE with hE
      subst hE
      simp [ensure_branch, host_get_branch, hb]

/-- Witness for C5: on a host where the working branch is absent and the
default branch exists, the first call creates the branch and the second call
is a single successful existence check. -/
theorem ensure_branch_idempotent_witness :
    ensure_branch
      (res_host
        { default_branch := "main",
          branches := fun n => if n = "main" then some "sha0" else none,
          files := fun _ _ => none, update_fault := none, create_fault := none }
        (ensure_branch
          { default_branch := "main",
            branches := fun n => if n = "main" then some "sha0" else none,
            files := fun _ _ => none, update_fault := none, create_fault := none }
          "agent/fix-bug").1)
      "agent/fix-bug" =
      (.ok (res_host
        { default_branch := "main",
          branches := fun n => if n = "main" then some "sha0" else none,
          files := fun _ _ => none, update_fault := none, create_fault := none }
        (ensure_branch
          { default_branch := "main",
            branches := fun n => if n = "main" then some "sha0" else none,
            files := fun _ _ => none, update_fault := none, create_fault := none }
          "agent/fix-bug").1), [Call.getBranch "agent/fix-bug"]) :=
  (ensure_branch_idempotent
    { default_branch := "main",
      branches := fun n => if n = "main" then some "sha0" else none,
      files := fun _ _ => none, update_fault := none, create_fault := none }
    "agent/fix-bug").2 _ rfl

/-- C4 as amended.  When the file exists on the branch and the host's update
step fails with a `GithubException`, the code does not report the error
directly: the inner `except GithubException` takes the create fallback, so a
`create_file` host call is performed; the file already existing, that create
fails, and the operation returns `"Error committing to file: <detail>"` where
the detail is the create failure's, not the update failure's. -/
theorem update_step_failure_attempts_create (h : Host) (p c m br fm sha x : String)
    (hb : h.branches br = some sha) (hf : h.files br p = some x)
    (hu : h.update_fault = some fm) (hc : h.create_fault = none) :
    (update_file h p c m br).1 =
      "Error committing to file: " ++ ("422 file already exists: " ++ p)
  ∧ Call.updateFile p br ∈ (update_file h p c m br).2.2
  ∧ Call.createFile p br ∈ (update_file h p c m br).2.2 := by
  refine ⟨?_, ?_, ?_⟩ <;>
    simp [update_file, ensure_branch, host_get_branch, host_get_contents,
      host_update_file, host_create_file, hb, hf, hu, hc]

/-- Counterexample to C4: on `conflict_host` — working branch and file
present, update step failing — `update_file` performs a `create_file` host
call (contrary to "does not instead perform or report a create"), and the
error detail it returns is the create step's, not the update step's. -/
theorem update_failure_performs_create :
    Call.createFile "app.py" "agent/fix-bug" ∈
      (update_file conflict_host "app.py" "new code" "fix" "agent/fix-bug").2.2
  ∧ (update_file conflict_host "app.py" "new code" "fix" "agent/fix-bug").1 =
      "Error committing to file: " ++ "422 file already exists: app.py" := by
  decide

/-- Witness for C4's amended theorem at the concrete `conflict_host`. -/
theorem update_step_failure_attempts_create_witness :
    (update_file conflict_host "app.py" "new code" "fix" "agent/fix-bug").1 =
      "Error committing to file: " ++ ("422 file already exists: " ++ "app.py")
  ∧ Call.updateFile "app.py" "agent/fix-bug" ∈
      (update_file conflict_host "app.py" "new code" "fix" "agent/fix-bug").2.2 :=
  ⟨(update_step_failure_attempts_create conflict_host "app.py" "new code" "fix"
      "agent/fix-bug" "409 Conflict" "sha1" "old code" (by decide) (by decide) rfl rfl).1,
   (update_step_failure_attempts_create conflict_host "app.py" "new code" "fix"
      "agent/fix-bug" "409 Conflict" "sha1" "old code" (by decide) (by decide) rfl rfl).2.1⟩

/-- On a fault-free host where the branch exists and the file exists on it,
`update_file` takes the update path and reports `"Updated ..."`. -/
theorem update_file_updates (g : Host) (p c m br sha x : String)
    (hb : g.branches br = some sha) (hf : g.files br p = some x)
    (hu : g.update_fault = none) :
    (update_file g p c m br).1 = "Updated " ++ p ++ " on " ++ br := by
  simp [update_file, ensure_branch, host_get_branch, host_get_contents,
    host_update_file, hb, hf, hu]

/-- C3.  `upsert_file` is idempotent: against a fault-free host on which the
first call succeeded (returned `"Updated ..."` or `"Created ..."`), calling
`update_file` again with the same `(path, content, branch)` returns
`"Updated <path> on <branch>"` — not an error string. -/
theorem upsert_file_idempotent (h : Host) (p c m br : String)
    (hu : h.update_fault = none) (hc : h.create_fault = none)
    (hok : (update_file h p c m br).1 = "Updated " ++ p ++ " on " ++ br
         ∨ (update_file h p c m br).1 = "Created " ++ p ++ " on " ++ br) :
    (update_file (update_file h p c m br).2.1 p c m br).1 =
      "Updated " ++ p ++ " on " ++ br := by
  rcases hb : h.branches br with _ | sha
  · rcases hd : h.branches h.default_branch with _ | sha0
    · -- branch resolution fails: the first call returned an error string,
      -- contradicting `hok`
      exfalso
      have herr : (update_file h p c m br).1 =
          "Error committing to file: " ++ ("404 branch not found: " ++ h.default_branch) := by
        simp [update_file, ensure_branch, host_get_branch, hb, hd]
      rw [herr] at hok
      rcases hok with hok | hok
      · exact error_ne_updated _ p br hok
      · exact error_ne_created _ p br hok
    · -- the branch is created from the default branch's head; the file on the
      -- fresh branch is the default branch's copy
      rcases hf : h.files h.default_branch p with _ | x
      · have hgb : ((update_file h p c m br).2.1).branches br = some sha0 := by
          simp [update_file, ensure_branch, host_get_branch, host_get_contents,
            host_update_file, host_create_file, host_create_ref, hb, hd, hf, hu, hc]
        have hgf : ((update_file h p c m br).2.1).files br p = some c := by
          simp [update_file, ensure_branch, host_get_branch, host_get_contents,
            host_update_file, host_create_file, host_create_ref, hb, hd, hf, hu, hc]
        have hgu : ((update_file h p c m br).2.1).update_fault = none := by
          simp [update_file, ensure_branch, host_get_branch, host_get_contents,
            host_update_file, host_create_file, host_create_ref, hb, hd, hf, hu, hc]
        exact update_file_updates _ p c m br sha0 c hgb hgf hgu
      · have hgb : ((update_file h p c m br).2.1).branches br = some sha0 := by
          simp [update_file, ensure_branch, host_get_branch, host_get_contents,
            host_update_file, host_create_file, host_create_ref, hb, hd, hf, hu, hc]
        have hgf : ((update_file h p c m br).2.1).files br p = some c := by
          simp [update_file, ensure_branch, host_get_branch, host_get_contents,
            host_update_file, host_create_file, host_create_ref, hb, hd, hf, hu, hc]
        have hgu : ((update_file h p c m br).2.1).update_fault = none := by
          simp [update_file, ensure_branch, host_get_branch, host_get_contents,
            host_update_file, host_create_file, host_create_ref, hb, hd, hf, hu, hc]
        exact update_file_updates _ p c m br sha0 c hgb hgf hgu
  · -- the branch already exists
    rcases hf : h.files br p with _ | x
    · have hgb : ((update_file h p c m br).2.1).branches br = some sha := by
        simp [update_file, ensure_branch, host_get_branch, host_get_contents,
          host_update_file, host_create_file, hb, hf, hu, hc]
      have hgf : ((update_file h p c m br).2.1).files br p = some c := by
        simp [update_file, ensure_branch, host_get_branch, host_get_contents,
          host_update_file, host_create_file, hb, hf, hu, hc]
      have hgu : ((update_file h p c m br).2.1).update_fault = none := by
        simp [update_file, ensure_branch, host_get_branch, host_get_contents,
          host_update_file, host_create_file, hb, hf, hu, hc]
      exact update_file_updates _ p c m br sha c hgb hgf hgu
    · have hgb : ((update_file h p c m br).2.1).branches br = some sha := by
        simp [update_file, ensure_branch, host_get_branch, host_get_contents,
          host_update_file, hb, hf, hu]
      have hgf : ((update_file h p c m br).2.1).files br p = some c := by
        simp [update_file, ensure_branch, host_get_branch, host_get_contents,
          host_update_file, hb, hf, hu]
      have hgu : ((update_file h p c m br).2.1).update_fault = none := by
        simp [update_file, ensure_branch, host_get_branch, host_get_contents,
          host_update_file, hb, hf, hu]
      exact update_file_updates _ p c m br sha c hgb hgf hgu

/-- Witness for C3: on a fault-free host with only an empty default branch,
the first call creates the working branch and the file (`"Created ..."`), and
the second identical call reports `"Updated app.py on agent/fix-bug"`. -/
theorem upsert_file_idempotent_witness :
    (update_file
      (update_file
        { default_branch := "main",
          branches := fun n => if n = "main" then some "sha0" else none,
          files := fun _ _ => none, update_fault := none, create_fault := none }
        "app.py" "new code" "fix" "agent/fix-bug").2.1
      "app.py" "new code" "fix" "agent/fix-bug").1 =
      "Updated " ++ "app.py" ++ " on " ++ "agent/fix-bug" :=
  upsert_file_idempotent
    { default_branch := "main",
      branches := fun n => if n = "main" then some "sha0" else none,
      files := fun _ _ => none, update_fault := none, create_fault := none }
    "app.py" "new code" "fix" "agent/fix-bug" rfl rfl (Or.inr (by decide))

/-- The map `files_of` distributes over forest concatenation. -/
theorem files_of_append (a b : List FSEntry) :
    files_of (a ++ b) = files_of a ++ files_of b := by
  induction a with
  | nil => simp [files_of]
  | cons e rest ih => cases e <;> simp [files_of, ih]

/-- Queue invariant of the traversal: processing `l` with `acc` still queued
emits this level's files of `l` first, then continues with `acc` followed by
the children `l` enqueued. -/
theorem bfs_files_round_aux (l : List FSEntry) :
    ∀ acc, bfs_files (l ++ acc) = level_files l ++ bfs_files (acc ++ next_level l) := by
  induction l with
  | nil => intro acc; simp [level_files, next_level]
  | cons e rest ih =>
      intro acc
      cases e with
      | file q =>
          have h1 : bfs_files ((FSEntry.file q :: rest) ++ acc)
              = q :: bfs_files (rest ++ acc) := by
            simp [bfs_files]
          rw [h1, ih acc]
          simp [level_files, next_level]
      | dir q cs =>
          have h1 : bfs_files ((FSEntry.dir q cs :: rest) ++ acc)
              = bfs_files (rest ++ (acc ++ cs)) := by
            simp [bfs_files]
          rw [h1, ih (acc ++ cs)]
          simp [level_files, next_level]

/-- The queue traversal enumerates the forest level by level (breadth-first):
it emits the files found directly at the current level, then recurses into
the concatenated children of this level's directories. -/
theorem bfs_files_round (l : List FSEntry) :
    bfs_files l = level_files l ++ bfs_files (next_level l) := by
  have h := bfs_files_round_aux l []
  simpa using h

/-- Every path emitted by the queue traversal is the path of a file node of
the forest (never of a directory node). -/
theorem mem_files_of_of_mem_bfs (l : List FSEntry) :
    ∀ p ∈ bfs_files l, p ∈ files_of l := by
  induction l using bfs_files.induct with
  | case1 => simp [bfs_files]
  | case2 q rest ih =>
      intro p hp
      rw [show bfs_files (FSEntry.file q :: rest) = q :: bfs_files rest from by
        simp [bfs_files]] at hp
      rcases List.mem_cons.mp hp with h | h
      · simp [files_of, h]
      · simp [files_of, ih p h]
  | case3 q cs rest ih =>
      intro p hp
      rw [show bfs_files (FSEntry.dir q cs :: rest) = bfs_files (rest ++ cs) from by
        simp [bfs_files]] at hp
      have := ih p hp
      rw [files_of_append] at this
      simp only [files_of]
      rcases List.mem_append.mp this with h | h
      · exact List.mem_append.mpr (Or.inr h)
      · exact List.mem_append.mpr (Or.inl h)

/-- C6.  `list_files` joins with newlines the first 50 paths emitted by the
queue traversal; that traversal is breadth-first (each level's files first,
directories' children enqueued for the next round); every returned entry is a
file path of the tree, never a directory path; the returned list never has
more than 50 entries however large the tree is; and a host-API failure
returns `"Error listing files: <detail>"`. -/
theorem list_files_spec :
    (∀ contents : List FSEntry,
        list_files (.ok contents) = String.intercalate "\n" ((bfs_files contents).take 50)
      ∧ ((bfs_files contents).take 50).length ≤ 50
      ∧ (∀ p ∈ (bfs_files contents).take 50, p ∈ files_of contents))
  ∧ (∀ l : List FSEntry, bfs_files l = level_files l ++ bfs_files (next_level l))
  ∧ (∀ e, list_files (.ghExn e) = "Error listing files: " ++ e) := by
  refine ⟨fun contents => ⟨rfl, ?_, ?_⟩, bfs_files_round, fun e => rfl⟩
  · have := List.length_take_le 50 (bfs_files contents)
    omega
  · intro p hp
    exact mem_files_of_of_mem_bfs contents p (List.mem_of_mem_take hp)

/-- Witness for C6 on a concrete two-level tree: the traversal emits the
root-level file before the subdirectory's file, both emitted paths are file
paths of the tree, and a failed initial listing yields the error string. -/
theorem list_files_spec_witness :
    "README.md" ∈ files_of [FSEntry.dir "src" [FSEntry.file "src/a.py"],
        FSEntry.file "README.md"]
  ∧ list_files (.ghExn "boom") = "Error listing files: " ++ "boom" :=
  ⟨(list_files_spec.1 [FSEntry.dir "src" [FSEntry.file "src/a.py"],
      FSEntry.file "README.md"]).2.2 "README.md" (by simp [bfs_files]),
   list_files_spec.2.2 "boom"⟩

end CodingAgent
